import Mathlib

/-!
Shallow embedding of the SmoothGrid terrain codec
(`src/rbx_types/src/terrain/smooth_grid.rs` together with the material
enumeration in `src/rbx_types/src/terrain/mod.rs`).

Modelling conventions:
* Rust `i32` values are modelled as `Int`.  All coordinate values that reach
  the encoder are clamped to `[-262144, 262144]` (chunks) or `[0, 31]`
  (voxels), far away from the `i32` boundaries, so two's-complement wrap-around
  never occurs on the traced paths and unbounded integers are faithful.
* Rust `u8`/`u16` values are modelled as `Nat`; every place the source
  performs a narrowing `as u8` cast the embedding takes `% 256` (or a
  saturating truncation for the float-to-`u8` casts, which saturate in Rust).
* Rust `f32` occupancy fractions are modelled as `ℚ`.  The code only clamps
  them, compares them against `0.0` / `1.0` and multiplies by `255.0` before
  truncation; for every non-NaN float those operations agree with the exact
  rational ones.
* Rust `Vec<u8>` buffers are modelled as `List Nat`; the `assert!` in
  `Voxel::encode_run_length` (a panic) is modelled by returning `Option`,
  with `none` for the panicking branch.
* `HashMap` (the chunk grid) is modelled as an association list with
  overwrite-on-insert; `BTreeMap` (the world) as a list kept sorted by the
  derived lexicographic order, with ordered insertion.
-/

/-- `TerrainVec` from the source: an exact 3-tuple of signed integers. -/
@[ext]
structure TerrainVec where
  x : Int
  y : Int
  z : Int
deriving DecidableEq, Repr

namespace TerrainVec

/-- `TerrainVec::new`. -/
def new (x y z : Int) : TerrainVec := ⟨x, y, z⟩

/-- `TerrainVec::from_vec3`: the source truncates the three `f32` components
of a `Vector3` toward zero with `as i32`.  The embedding receives the three
already-truncated integer components; no clamping is performed (matching the
source, which performs none). -/
def fromVec3 (x y z : Int) : TerrainVec := ⟨x, y, z⟩

end TerrainVec

/-- Rust `i32::clamp(self, min, max)`. -/
def intClamp (v lo hi : Int) : Int :=
  if v < lo then lo else if v > hi then hi else v

/-- `CHUNK_SIZE = 2i32.pow(5)`. -/
def CHUNK_SIZE : Int := 2 ^ 5

/-- `VoxelCoordinates` is a `repr(transparent)` newtype over `TerrainVec`. -/
abbrev VoxelCoordinates := TerrainVec

namespace VoxelCoordinates

/-- `VoxelCoordinates::new`: clamps every component to `[0, CHUNK_SIZE - 1]`. -/
def new (x y z : Int) : VoxelCoordinates :=
  TerrainVec.new (intClamp x 0 (CHUNK_SIZE - 1)) (intClamp y 0 (CHUNK_SIZE - 1))
    (intClamp z 0 (CHUNK_SIZE - 1))

/-- `VoxelCoordinates::from_vec3`: delegates to `TerrainVec::from_vec3`,
which does not clamp. -/
def fromVec3 (x y z : Int) : VoxelCoordinates := TerrainVec.fromVec3 x y z

end VoxelCoordinates

/-- `ChunkCoordinates` is a `repr(transparent)` newtype over `TerrainVec`. -/
abbrev ChunkCoordinates := TerrainVec

namespace ChunkCoordinates

/-- `CHUNK_MAX = 2i32.pow(23) / CHUNK_SIZE` (= 262144). -/
def CHUNK_MAX : Int := 2 ^ 23 / CHUNK_SIZE

/-- `ChunkCoordinates::new`: clamps every component to `[-CHUNK_MAX, CHUNK_MAX]`. -/
def new (x y z : Int) : ChunkCoordinates :=
  TerrainVec.new (intClamp x (-CHUNK_MAX) CHUNK_MAX) (intClamp y (-CHUNK_MAX) CHUNK_MAX)
    (intClamp z (-CHUNK_MAX) CHUNK_MAX)

/-- `ChunkCoordinates::from_vec3`: delegates to `TerrainVec::from_vec3`,
which does not clamp. -/
def fromVec3 (x y z : Int) : ChunkCoordinates := TerrainVec.fromVec3 x y z

end ChunkCoordinates

/-- The public material enumeration `TerrainMaterials` (terrain/mod.rs). -/
inductive TerrainMaterials where
  | Air | Water | Grass | Slate | Concrete | Brick | Sand | WoodPlanks
  | Rock | Glacier | Snow | Sandstone | Mud | Basalt | Ground | CrackedLava
  | Asphalt | Cobblestone | Ice | LeafyGrass | Salt | Limestone | Pavement
deriving DecidableEq, Repr

/-- The wire-format material enumeration `TerrainGridMaterial`
(`#[repr(u8)]`, discriminants 0x00 to 0x16). -/
inductive TerrainGridMaterial where
  | Air | Water | Grass | Slate | Concrete | Brick | Sand | WoodPlanks
  | Rock | Glacier | Snow | Sandstone | Mud | Basalt | Ground | CrackedLava
  | Asphalt | Cobblestone | Ice | LeafyGrass | Salt | Limestone | Pavement
deriving DecidableEq, Repr

namespace TerrainGridMaterial

/-- The `repr(u8)` discriminant of a `TerrainGridMaterial`
(the value of `self.material as u8`). -/
def code : TerrainGridMaterial → Nat
  | Air => 0x00 | Water => 0x01 | Grass => 0x02 | Slate => 0x03
  | Concrete => 0x04 | Brick => 0x05 | Sand => 0x06 | WoodPlanks => 0x07
  | Rock => 0x08 | Glacier => 0x09 | Snow => 0x0A | Sandstone => 0x0B
  | Mud => 0x0C | Basalt => 0x0D | Ground => 0x0E | CrackedLava => 0x0F
  | Asphalt => 0x10 | Cobblestone => 0x11 | Ice => 0x12 | LeafyGrass => 0x13
  | Salt => 0x14 | Limestone => 0x15 | Pavement => 0x16

/-- `impl From<TerrainMaterials> for TerrainGridMaterial`. -/
def ofMaterials : TerrainMaterials → TerrainGridMaterial
  | .Air => Air | .Water => Water | .Grass => Grass | .Slate => Slate
  | .Concrete => Concrete | .Brick => Brick | .Sand => Sand
  | .WoodPlanks => WoodPlanks | .Rock => Rock | .Glacier => Glacier
  | .Snow => Snow | .Sandstone => Sandstone | .Mud => Mud | .Basalt => Basalt
  | .Ground => Ground | .CrackedLava => CrackedLava | .Asphalt => Asphalt
  | .Cobblestone => Cobblestone | .Ice => Ice | .LeafyGrass => LeafyGrass
  | .Salt => Salt | .Limestone => Limestone | .Pavement => Pavement

/-- `impl TryFrom<u8> for TerrainGridMaterial` (fails with
`SmoothGridError::UnknownMaterial` outside `0x00..=0x16`). -/
def tryFromU8 (value : Nat) : Option TerrainGridMaterial :=
  match value with
  | 0x00 => some Air | 0x01 => some Water | 0x02 => some Grass
  | 0x03 => some Slate | 0x04 => some Concrete | 0x05 => some Brick
  | 0x06 => some Sand | 0x07 => some WoodPlanks | 0x08 => some Rock
  | 0x09 => some Glacier | 0x0A => some Snow | 0x0B => some Sandstone
  | 0x0C => some Mud | 0x0D => some Basalt | 0x0E => some Ground
  | 0x0F => some CrackedLava | 0x10 => some Asphalt | 0x11 => some Cobblestone
  | 0x12 => some Ice | 0x13 => some LeafyGrass | 0x14 => some Salt
  | 0x15 => some Limestone | 0x16 => some Pavement
  | _ => none

end TerrainGridMaterial

/-- `Voxel`: occupancy fractions (`f32` in the source, modelled as `ℚ`)
plus a wire material.  Field order follows the source. -/
structure Voxel where
  solid_occupancy : ℚ
  water_occupancy : ℚ
  material : TerrainGridMaterial
deriving DecidableEq, Repr

namespace Voxel

/-- `Default` for `Voxel` (`f32` default 0.0, material default `Air`). -/
def defaultVoxel : Voxel := ⟨0, 0, TerrainGridMaterial.Air⟩

/-- Rust `f32::clamp(self, 0.0, 1.0)` on a non-NaN value. -/
def clamp01 (q : ℚ) : ℚ := if q < 0 then 0 else if q > 1 then 1 else q

/-- `Voxel::set_occupancy` (lines 305-335 of smooth_grid.rs). -/
def setOccupancy (v : Voxel) (solid water : ℚ) : Voxel :=
  let solid := clamp01 solid
  let water := clamp01 water
  -- If we have nothing in there, it should just be air.
  if solid = 0 ∧ water = 0 then
    ⟨1, 0, TerrainGridMaterial.Air⟩
  -- We should encode water as a normal, non-shorelines voxel if there's no solids.
  else if (solid = 0 ∨ v.material = TerrainGridMaterial.Air) ∧ water > 0 then
    ⟨water, 0, TerrainGridMaterial.Water⟩
  -- Full with a solid (non-air) material? We can't have any water.
  else if solid = 1 then
    ⟨solid, 0, v.material⟩
  else
    ⟨solid, water, v.material⟩

/-- `Voxel::new`. -/
def new (material : TerrainMaterials) (solid_occupancy : ℚ) : Voxel :=
  setOccupancy { defaultVoxel with material := TerrainGridMaterial.ofMaterials material }
    solid_occupancy 0

/-- `Voxel::new_with_water`. -/
def newWithWater (material : TerrainMaterials) (solid_occupancy water_occupancy : ℚ) : Voxel :=
  setOccupancy { defaultVoxel with material := TerrainGridMaterial.ofMaterials material }
    solid_occupancy water_occupancy

/-- `Voxel::set_material`: swaps the material, then re-runs
`set_occupancy` on the current occupancy values. -/
def setMaterial (v : Voxel) (material : TerrainMaterials) : Voxel :=
  setOccupancy { v with material := TerrainGridMaterial.ofMaterials material }
    v.solid_occupancy v.water_occupancy

/-- `Voxel::get_encode_data`: `(self.solid_occupancy * 255.0) as u8` and the
same for water.  The Rust float-to-int `as` cast truncates toward zero and
saturates into `[0, 255]`; `Int.toNat ∘ Int.floor` truncates non-negative
rationals and sends negative ones to 0, and `min 255` saturates above. -/
def getEncodeData (v : Voxel) : Nat × Nat :=
  (min (Int.toNat ⌊v.solid_occupancy * 255⌋) 255,
   min (Int.toNat ⌊v.water_occupancy * 255⌋) 255)

/-- The buffer built by `Voxel::encode_run_length` after the `assert!`
passed (lines 264-299).  The imperative pushes are translated into list
appends; `to_write[0] = flag` is `List.set 0`; the final
`cycle().take(len * count)` of a `len`-element buffer is `count`
concatenated copies of the buffer. -/
def encodeRunLengthBody (v : Voxel) (count : Nat) : List Nat :=
  let solid_occupancy := (getEncodeData v).1
  let water_occupancy := (getEncodeData v).2
  let flag0 := v.material.code
  let toWrite0 : List Nat := [0x00]
  -- Should we store the solid occupancy value?
  let step1 :=
    if solid_occupancy ≠ 0xFF ∧ solid_occupancy ≠ 0x00 then
      (flag0 ||| 0b01000000, toWrite0 ++ [solid_occupancy])
    else (flag0, toWrite0)
  -- Should we store the count (amount of voxels this run length) value?
  let step2 :=
    if count > 1 ∨ water_occupancy ≠ 0 then
      (step1.1 ||| 0b10000000,
       step1.2 ++ (if water_occupancy = 0 then [(count - 1) % 256] else [0, water_occupancy]))
    else step1
  let toWrite := step2.2.set 0 step2.1
  -- Shorelines hack: wet voxels spanning more than one cell are written out
  -- voxel by voxel instead of as one compressed run.
  if water_occupancy ≠ 0x00 ∧ count > 1 then
    (List.replicate count toWrite).flatten
  else
    toWrite

/-- `Voxel::encode_run_length`: the leading
`assert!((1..=256).contains(&count))` panic is modelled as `none`. -/
def encodeRunLength (v : Voxel) (count : Nat) : Option (List Nat) :=
  if 1 ≤ count ∧ count ≤ 256 then some (encodeRunLengthBody v count) else none

end Voxel

example : Voxel.encodeRunLength Voxel.defaultVoxel 0 = none := by decide
example : Voxel.encodeRunLength ⟨1, 0, TerrainGridMaterial.Air⟩ 256 =
    some [0x80, 0xFF] := by
  norm_num [Voxel.encodeRunLength, Voxel.encodeRunLengthBody, Voxel.getEncodeData]
  decide
example : Voxel.encodeRunLength ⟨1, 1/2, TerrainGridMaterial.Grass⟩ 2 =
    some [0x82, 0, 127, 0x82, 0, 127] := by
  norm_num [Voxel.encodeRunLength, Voxel.encodeRunLengthBody, Voxel.getEncodeData,
    Int.floor_eq_iff]
  decide
example : Voxel.new TerrainMaterials.Grass 0 = ⟨1, 0, TerrainGridMaterial.Air⟩ := by
  norm_num [Voxel.new, Voxel.setOccupancy, Voxel.defaultVoxel, Voxel.clamp01]

/-- The chunk grid (`HashMap<VoxelCoordinates, Voxel>`), modelled as an
association list.  Only `insert` and `get` are used by the source. -/
def Grid := List (VoxelCoordinates × Voxel)

namespace Grid

/-- `HashMap::get`: the value stored at `p`, if any. -/
def get (g : Grid) (p : VoxelCoordinates) : Option Voxel :=
  (List.find? (fun e => e.1 = p) g).map (·.2)

/-- `HashMap::insert`: overwrites any previous entry at `p`. -/
def insert (g : Grid) (p : VoxelCoordinates) (v : Voxel) : Grid :=
  (p, v) :: List.filter (fun e => ¬ e.1 = p) g

end Grid

/-- `Chunk`: sparse voxel grid over an implicit base material. -/
structure Chunk where
  grid : List (VoxelCoordinates × Voxel)
  base_material : TerrainGridMaterial
deriving DecidableEq, Repr

namespace Chunk

/-- `Chunk::new`. -/
def new : Chunk := ⟨[], TerrainGridMaterial.Air⟩

/-- `Chunk::new_with_base`. -/
def newWithBase (base_material : TerrainMaterials) : Chunk :=
  ⟨[], TerrainGridMaterial.ofMaterials base_material⟩

/-- `Chunk::set_base`. -/
def setBase (c : Chunk) (base_material : TerrainMaterials) : Chunk :=
  { c with base_material := TerrainGridMaterial.ofMaterials base_material }

/-- `Chunk::get_voxel`. -/
def getVoxel (c : Chunk) (position : VoxelCoordinates) : Option Voxel :=
  Grid.get c.grid position

/-- `Chunk::write_voxel`. -/
def writeVoxel (c : Chunk) (position : VoxelCoordinates) (voxel : Voxel) : Chunk :=
  { c with grid := Grid.insert c.grid position voxel }

end Chunk

/-- The implicit voxel used for unmapped cells in `Chunk::encode`:
`Voxel { solid_occupancy: 1.0, water_occupancy: 0.0, material: base }`. -/
def baseVoxel (base : TerrainGridMaterial) : Voxel := ⟨1, 0, base⟩

/-- The cell coordinates visited by `Chunk::encode`, in its scan order:
`y` outermost, then `z`, then `x` innermost, each over `0..CHUNK_SIZE`. -/
def scanCoords : List VoxelCoordinates :=
  (List.range 32).flatMap fun y =>
    (List.range 32).flatMap fun z =>
      (List.range 32).map fun x => ⟨Int.ofNat x, Int.ofNat y, Int.ofNat z⟩

/-- The sequence of voxels the scan of `Chunk::encode` reads: the stored
voxel where the grid has an entry, the base voxel otherwise. -/
def scanList (c : Chunk) : List Voxel :=
  scanCoords.map fun p => (Grid.get c.grid p).getD (baseVoxel c.base_material)

/-- The run-length accumulation loop of `Chunk::encode` (lines 410-451),
as a recursion over the scanned voxel sequence.  `cursor` is
`run_length_cursor`, `rv` is `run_length_voxel`; the `[]` case is the
trailing flush after the loop.  A `none` anywhere models the
`encode_run_length` assertion panic. -/
def encodeCells : List Voxel → Nat → Voxel → Option (List Nat)
  | [], cursor, rv =>
    -- We might have a bit of leftovers after that loop.
    if cursor > 0 then Voxel.encodeRunLength rv cursor else some []
  | cell :: rest, cursor, rv =>
    let rv := if cursor = 0 then cell else rv
    if cell = rv then
      if cursor < 0xFF then
        encodeCells rest (cursor + 1) rv
      else
        -- Properly reset the run-length if we hit the max.
        (Voxel.encodeRunLength cell (cursor + 1)).bind fun run =>
          (encodeCells rest 0 rv).map fun tail => run ++ tail
    else
      (Voxel.encodeRunLength rv cursor).bind fun run =>
        (encodeCells rest 1 cell).map fun tail => run ++ tail

/-- `Chunk::encode`: scan all 32×32×32 cells in y-z-x order, run-length
compressing via `encodeCells`, starting from an empty run and the base
voxel. -/
def Chunk.encode (c : Chunk) : Option (List Nat) :=
  encodeCells (scanList c) 0 (baseVoxel c.base_material)

lemma flatMap_const_length {α β : Type} (l : List α) (f : α → List β) (n : Nat)
    (h : ∀ a ∈ l, (f a).length = n) : (l.flatMap f).length = l.length * n := by
  induction l with
  | nil => simp
  | cons a t ih =>
    simp only [List.flatMap_cons, List.length_append, List.length_cons, Nat.succ_mul,
      h a (List.mem_cons_self a t), ih fun x hx => h x (List.mem_cons_of_mem a hx)]
    omega

lemma scanCoords_length : scanCoords.length = 32768 := by
  rw [scanCoords, flatMap_const_length _ _ 1024 ?h, List.length_range]
  case h =>
    intro y hy
    rw [flatMap_const_length _ _ 32 fun z hz => by rw [List.length_map, List.length_range],
      List.length_range]

/-- The derived `Ord` on `TerrainVec` (field declaration order):
lexicographic on `x`, then `y`, then `z`.  This is the `BTreeMap` key
order for `ChunkCoordinates`. -/
def TerrainVec.lexLt (a b : TerrainVec) : Prop :=
  a.x < b.x ∨ (a.x = b.x ∧ (a.y < b.y ∨ (a.y = b.y ∧ a.z < b.z)))

instance (a b : TerrainVec) : Decidable (TerrainVec.lexLt a b) := by
  unfold TerrainVec.lexLt
  infer_instance

/-- Insertion into the `BTreeMap<ChunkCoordinates, Chunk>`, modelled on a
key-sorted association list: keep ascending `lexLt` order, overwrite an
equal key. -/
def insertWorld (p : ChunkCoordinates) (c : Chunk) :
    List (ChunkCoordinates × Chunk) → List (ChunkCoordinates × Chunk)
  | [] => [(p, c)]
  | (q, d) :: rest =>
    if TerrainVec.lexLt p q then (p, c) :: (q, d) :: rest
    else if p = q then (p, c) :: rest
    else (q, d) :: insertWorld p c rest

/-- `SmoothGrid`: the world, a `BTreeMap` from chunk position to chunk,
modelled as a `lexLt`-sorted association list. -/
structure SmoothGrid where
  world : List (ChunkCoordinates × Chunk)
deriving DecidableEq, Repr

namespace SmoothGrid

/-- `SmoothGrid::new`. -/
def new : SmoothGrid := ⟨[]⟩

/-- `SmoothGrid::get_chunk`. -/
def getChunk (g : SmoothGrid) (position : ChunkCoordinates) : Option Chunk :=
  (List.find? (fun e => e.1 = position) g.world).map (·.2)

/-- `SmoothGrid::write_chunk` (`BTreeMap::insert`). -/
def writeChunk (g : SmoothGrid) (position : ChunkCoordinates) (chunk : Chunk) : SmoothGrid :=
  ⟨insertWorld position chunk g.world⟩

end SmoothGrid

/-- One pass of the inner while-loop of `SmoothGrid::encode` that splits
`axis_adjuster = |axis|` into base-256 digit planes (lines 530-549).
In the source the three match arms of the loop necessarily fire from the
most significant one downward, each at most once (every arm reduces
`axis_adjuster` below that arm's lower bound), so the loop is unrolled
into its three possible passes.  Returned as
`(adjusted_axes[0], adjusted_axes[1], adjusted_axes[2])` contributions,
i.e. (65536-multiples, 256-multiples, units); each `as u8` cast is `% 256`. -/
def adjustAxis (a : Nat) : Nat × Nat × Nat :=
  let pass0 := if 65536 ≤ a then ((a / 65536) % 256, a - a / 65536 * 65536) else (0, a)
  let pass1 :=
    if 256 ≤ pass0.2 then ((pass0.2 / 256) % 256, pass0.2 - pass0.2 / 256 * 256) else (0, pass0.2)
  (pass0.1, pass1.1, pass1.2 % 256)

/-- The `axis_filler` classification of `SmoothGrid::encode` (lines 521-525):
3 for `|axis| < 256`, 2 for `|axis| < 65536`, 1 otherwise. -/
def axisFiller (a : Nat) : Nat :=
  if a < 256 then 3 else if a < 65536 then 2 else 1

/-- The position delta header written by `SmoothGrid::encode` for one chunk
(lines 507-559), as a function of the per-axis deltas
`axes = [dx, dy, dz]` (chunk position minus cursor position).
`negative_padding` starts at 3 and is lowered to the smallest
`axis_filler`; the header is `negative_padding` copies of the sign plane
followed by `adjusted_axes[2 - i]` for `i in 0..(4 - negative_padding)`. -/
def deltaHeader (dx dy dz : Int) : List Nat :=
  let negativeAxes : List Nat :=
    [dx, dy, dz].map fun axis => if axis < 0 then 0xFF else 0x00
  let negativePadding : Nat :=
    ([dx, dy, dz].map fun axis => axisFiller axis.natAbs).foldl min 3
  let adjusted : List (Nat × Nat × Nat) := [dx, dy, dz].map fun axis => adjustAxis axis.natAbs
  let adjustedAxes : Nat → List Nat := fun plane =>
    if plane = 0 then adjusted.map (·.1)
    else if plane = 1 then adjusted.map (·.2.1)
    else adjusted.map (·.2.2)
  (List.replicate negativePadding negativeAxes).flatten ++
    ((List.range (4 - negativePadding)).map fun i => adjustedAxes (2 - i)).flatten

/-- The per-chunk loop of `SmoothGrid::encode` (lines 501-563): for each
entry of the (sorted) world, emit the delta header against the cursor
(the previous position; the first chunk is its own cursor) and then the
chunk's body. -/
def encodeWorldLoop :
    List (ChunkCoordinates × Chunk) → Option ChunkCoordinates → Option (List Nat)
  | [], _ => some []
  | (position, chunk) :: rest, chunkCursor =>
    let cursor := match chunkCursor with
      | none => position
      | some c => c
    let header := deltaHeader (position.x - cursor.x) (position.y - cursor.y)
      (position.z - cursor.z)
    (chunk.encode).bind fun body =>
      (encodeWorldLoop rest (some position)).map fun tail => header ++ body ++ tail

/-- `SmoothGrid::encode`: the fixed two-byte header
`[0x01, CHUNK_SIZE.ilog2() as u8]` followed by the chunk entries in world
(key-sorted) order. -/
def SmoothGrid.encode (g : SmoothGrid) : Option (List Nat) :=
  (encodeWorldLoop g.world none).map fun rest => [0x01, (32 : Nat).log2] ++ rest

example : deltaHeader 0 0 0 = List.replicate 12 0 := by decide
example : deltaHeader 300 0 0 = [0, 0, 0, 0, 0, 0, 44, 0, 0, 1, 0, 0] := by decide
example : deltaHeader (-1) 0 0 = [255, 0, 0, 255, 0, 0, 255, 0, 0, 1, 0, 0] := by decide
lemma log2_32 : (32 : Nat).log2 = 5 := by simp [Nat.log2]

lemma clamp01_nonneg (q : ℚ) : 0 ≤ Voxel.clamp01 q := by
  unfold Voxel.clamp01
  split_ifs <;> linarith

lemma clamp01_le_one (q : ℚ) : Voxel.clamp01 q ≤ 1 := by
  unfold Voxel.clamp01
  split_ifs <;> linarith

lemma clamp01_one : Voxel.clamp01 1 = 1 := by
  unfold Voxel.clamp01
  norm_num

lemma clamp01_zero : Voxel.clamp01 0 = 0 := by
  unfold Voxel.clamp01
  norm_num

/-- The occupancy invariant from the specification (§8):
wet voxels are not full of solid (unless the material is itself Water),
and a voxel with no contents at all must be Air. -/
def voxelInvariant (v : Voxel) : Prop :=
  (v.water_occupancy > 0 → v.solid_occupancy < 1 ∨ v.material = TerrainGridMaterial.Water) ∧
  (v.solid_occupancy = 0 ∧ v.water_occupancy = 0 → v.material = TerrainGridMaterial.Air)

lemma setOccupancy_invariant (v : Voxel) (so wo : ℚ) :
    voxelInvariant (v.setOccupancy so wo) := by
  simp only [Voxel.setOccupancy, voxelInvariant]
  split_ifs with h1 h2 h3
  · exact ⟨fun hw => absurd hw (by norm_num), fun _ => rfl⟩
  · refine ⟨fun _ => Or.inr rfl, fun hz => ?_⟩
    have hw0 : Voxel.clamp01 wo = 0 := hz.1
    exact absurd h2.2 (by rw [hw0]; exact lt_irrefl 0)
  · exact ⟨fun hw => absurd hw (by norm_num), fun hz => by rw [h3] at hz; simp at hz⟩
  · refine ⟨fun hw => Or.inl (lt_of_le_of_ne (clamp01_le_one so) h3), fun hz => ?_⟩
    exact absurd ⟨hz.1, hz.2⟩ h1

lemma setOccupancy_one_water (v : Voxel) (wo : ℚ) :
    (v.setOccupancy 1 wo).water_occupancy = 0 := by
  simp only [Voxel.setOccupancy]
  split_ifs with h1 h2 h3
  · rfl
  · rfl
  · rfl
  · exact absurd clamp01_one h3

lemma setOccupancy_zero_zero (v : Voxel) :
    v.setOccupancy 0 0 = ⟨1, 0, TerrainGridMaterial.Air⟩ := by
  simp only [Voxel.setOccupancy]
  rw [if_pos ⟨clamp01_zero, clamp01_zero⟩]

/-- C7.  Every `Voxel` produced or mutated through the public interface
(`new`, `new_with_water`, `set_occupancy`, `set_material`) satisfies the
occupancy invariant; setting solid occupancy to 1.0 forces water occupancy
to 0.0, and setting both occupancies to zero collapses the voxel to
`{material = Air, solid = 1.0, water = 0.0}`. -/
theorem voxel_occupancy_invariant :
    (∀ (v : Voxel) (so wo : ℚ), voxelInvariant (v.setOccupancy so wo)) ∧
    (∀ (m : TerrainMaterials) (so : ℚ), voxelInvariant (Voxel.new m so)) ∧
    (∀ (m : TerrainMaterials) (so wo : ℚ), voxelInvariant (Voxel.newWithWater m so wo)) ∧
    (∀ (v : Voxel) (m : TerrainMaterials), voxelInvariant (v.setMaterial m)) ∧
    (∀ (v : Voxel) (wo : ℚ), (v.setOccupancy 1 wo).water_occupancy = 0) ∧
    (∀ v : Voxel, v.setOccupancy 0 0 = ⟨1, 0, TerrainGridMaterial.Air⟩) :=
  ⟨setOccupancy_invariant,
   fun m so => setOccupancy_invariant _ so 0,
   fun m so wo => setOccupancy_invariant _ so wo,
   fun v m => setOccupancy_invariant _ v.solid_occupancy v.water_occupancy,
   setOccupancy_one_water,
   setOccupancy_zero_zero⟩

/-- C8, counterexample.  `VoxelCoordinates::from_vec3` is a constructor of
`VoxelCoordinates`, yet it performs no clamping: component `x = 99` stays
`99`, outside `[0, 31]`. -/
theorem fromVec3_does_not_clamp :
    VoxelCoordinates.fromVec3 99 0 0 = ⟨99, 0, 0⟩ ∧
    ¬ (VoxelCoordinates.fromVec3 99 0 0).x ≤ 31 := by
  exact ⟨rfl, by decide⟩

/-- C8, amended.  The `new` constructors clamp every component
(`VoxelCoordinates` into `[0, 31]`, with `x = 99 ↦ 31` and `x = -5 ↦ 0`;
`ChunkCoordinates` into `[-262144, 262144]`), while the `from_vec3`
constructors pass the (truncated) components through without clamping. -/
theorem constructors_clamp :
    (∀ x y z : Int, VoxelCoordinates.new x y z =
      ⟨intClamp x 0 31, intClamp y 0 31, intClamp z 0 31⟩) ∧
    (∀ x y z : Int, ChunkCoordinates.new x y z =
      ⟨intClamp x (-262144) 262144, intClamp y (-262144) 262144,
        intClamp z (-262144) 262144⟩) ∧
    (VoxelCoordinates.new 99 0 0).x = 31 ∧
    (VoxelCoordinates.new (-5) 0 0).x = 0 ∧
    (∀ x y z : Int, VoxelCoordinates.fromVec3 x y z = ⟨x, y, z⟩) ∧
    (∀ x y z : Int, ChunkCoordinates.fromVec3 x y z = ⟨x, y, z⟩) := by
  refine ⟨fun x y z => rfl, fun x y z => ?_, by decide, by decide,
    fun x y z => rfl, fun x y z => rfl⟩
  show TerrainVec.new (intClamp x (-ChunkCoordinates.CHUNK_MAX) ChunkCoordinates.CHUNK_MAX)
      (intClamp y (-ChunkCoordinates.CHUNK_MAX) ChunkCoordinates.CHUNK_MAX)
      (intClamp z (-ChunkCoordinates.CHUNK_MAX) ChunkCoordinates.CHUNK_MAX) = _
  norm_num [ChunkCoordinates.CHUNK_MAX, CHUNK_SIZE, TerrainVec.new]

lemma code_lt_64 (m : TerrainGridMaterial) : m.code < 64 := by
  cases m <;> decide

lemma code_lor64 (m : TerrainGridMaterial) : m.code ||| 0x40 = m.code + 0x40 := by
  cases m <;> decide

lemma code_lor128 (m : TerrainGridMaterial) : m.code ||| 0x80 = m.code + 0x80 := by
  cases m <;> decide

lemma code_lor64_lor128 (m : TerrainGridMaterial) :
    (m.code ||| 0x40) ||| 0x80 = m.code + 0x40 + 0x80 := by
  cases m <;> decide

lemma code_add64_lor128 (m : TerrainGridMaterial) :
    (m.code + 0x40) ||| 0x80 = m.code + 0x40 + 0x80 := by
  cases m <;> decide

/-- C3.  For every voxel and count in `[1, 256]`, `encode_run_length`
emits a flag byte carrying the material code in its low bits, with bit 6
(`0x40`) set iff the quantized solid occupancy is neither `0x00` nor
`0xFF` (in which case the solid byte follows), and bit 7 (`0x80`) set iff
`count > 1` or the quantized water occupancy is nonzero (in which case one
byte follows: `count - 1` if water is zero, else `0x00` followed by the
water byte); the bytes appear in the order flag, solid, count-or-zero,
water.  (The whole sequence is repeated `count` times when water is
nonzero and `count > 1`, per the shoreline hack — claim C4.) -/
theorem encodeRunLength_byte_layout (v : Voxel) (count : Nat)
    (h1 : 1 ≤ count) (h2 : count ≤ 256) :
    Voxel.encodeRunLength v count =
      some ((List.replicate
          (if v.getEncodeData.2 ≠ 0 ∧ 1 < count then count else 1)
          ([v.material.code
              + (if v.getEncodeData.1 ≠ 0xFF ∧ v.getEncodeData.1 ≠ 0x00 then 0x40 else 0)
              + (if 1 < count ∨ v.getEncodeData.2 ≠ 0 then 0x80 else 0)] ++
            (if v.getEncodeData.1 ≠ 0xFF ∧ v.getEncodeData.1 ≠ 0x00 then [v.getEncodeData.1]
             else []) ++
            (if 1 < count ∨ v.getEncodeData.2 ≠ 0 then
              (if v.getEncodeData.2 = 0 then [count - 1] else [0x00, v.getEncodeData.2])
             else []))).flatten) := by
  rw [Voxel.encodeRunLength, if_pos ⟨h1, h2⟩]
  have hc : count - 1 < 256 := by omega
  simp only [Voxel.encodeRunLengthBody]
  by_cases c6 : v.getEncodeData.1 ≠ 0xFF ∧ v.getEncodeData.1 ≠ 0x00 <;>
    by_cases cw : v.getEncodeData.2 = 0 <;>
    by_cases cc : 1 < count <;>
    simp [c6, cw, cc, Nat.mod_eq_of_lt hc, code_lor64, code_lor128, code_lor64_lor128,
      code_add64_lor128, gt_iff_lt]

/-- Witness for C3 at the fully-solid dry voxel `⟨1, 0, Grass⟩` and
`count = 5`: one flag byte `0x82` (bit 7 set, no solid byte since the
quantized solid is `0xFF`) followed by the count byte `4 = count - 1`. -/
theorem encodeRunLength_byte_layout_witness :
    Voxel.encodeRunLength ⟨1, 0, TerrainGridMaterial.Grass⟩ 5 = some [0x82, 4] := by
  have h := encodeRunLength_byte_layout ⟨1, 0, TerrainGridMaterial.Grass⟩ 5
    (by decide) (by decide)
  norm_num [Voxel.getEncodeData] at h
  exact h

/-- C4.  When the quantized water occupancy is nonzero and `count > 1`,
`encode_run_length` writes no compressed run: the output is exactly
`count` verbatim copies of the fully-assembled single-voxel sequence
(flag byte, optional solid byte, `0x00`, water byte). -/
theorem shoreline_hack_repeats_voxel (v : Voxel) (count : Nat)
    (hw : v.getEncodeData.2 ≠ 0) (h1 : 1 < count) (h2 : count ≤ 256) :
    Voxel.encodeRunLength v count =
      some ((List.replicate count
          ([v.material.code
              + (if v.getEncodeData.1 ≠ 0xFF ∧ v.getEncodeData.1 ≠ 0x00 then 0x40 else 0)
              + 0x80] ++
            (if v.getEncodeData.1 ≠ 0xFF ∧ v.getEncodeData.1 ≠ 0x00 then [v.getEncodeData.1]
             else []) ++ [0x00, v.getEncodeData.2])).flatten) := by
  rw [Voxel.encodeRunLength, if_pos ⟨by omega, h2⟩]
  simp only [Voxel.encodeRunLengthBody]
  by_cases c6 : v.getEncodeData.1 ≠ 0xFF ∧ v.getEncodeData.1 ≠ 0x00 <;>
    simp [c6, hw, h1, code_lor64, code_lor128, code_add64_lor128, gt_iff_lt]

/-- Witness for C4: the wet voxel `⟨1, 1/2, Grass⟩` (water byte 127)
spanning 5 cells emits 5 literal copies of `[0x82, 0x00, 127]`. -/
theorem shoreline_hack_repeats_voxel_witness :
    Voxel.encodeRunLength ⟨1, 1/2, TerrainGridMaterial.Grass⟩ 5 =
      some [0x82, 0, 127, 0x82, 0, 127, 0x82, 0, 127, 0x82, 0, 127, 0x82, 0, 127] := by
  have h := shoreline_hack_repeats_voxel ⟨1, 1/2, TerrainGridMaterial.Grass⟩ 5
    (by norm_num [Voxel.getEncodeData, Int.floor_eq_iff]) (by decide) (by decide)
  norm_num [Voxel.getEncodeData, Int.floor_eq_iff] at h
  exact h

lemma encodeCells_isSome (cells : List Voxel) :
    ∀ (cursor : Nat) (rv : Voxel), cursor ≤ 255 →
      ∃ out, encodeCells cells cursor rv = some out := by
  induction cells with
  | nil =>
    intro cursor rv h
    by_cases h0 : cursor > 0
    · refine ⟨Voxel.encodeRunLengthBody rv cursor, ?_⟩
      simp only [encodeCells]
      rw [if_pos h0, Voxel.encodeRunLength, if_pos ⟨h0, by omega⟩]
    · exact ⟨[], by simp only [encodeCells]; rw [if_neg h0]⟩
  | cons cell rest ih =>
    intro cursor rv h
    simp only [encodeCells]
    by_cases h0 : cursor = 0
    · subst h0
      obtain ⟨out, hout⟩ := ih 1 cell (by omega)
      refine ⟨out, ?_⟩
      have hin : (if (0 : Nat) = 0 then cell else rv) = cell := if_pos rfl
      rw [hin, if_pos rfl, if_pos (by omega : (0:Nat) < 0xFF)]
      exact hout
    · simp only [if_neg h0]
      by_cases he : cell = rv
      · rw [if_pos he]
        by_cases hlt : cursor < 0xFF
        · rw [if_pos hlt]; exact ih _ _ (by omega)
        · rw [if_neg hlt]
          obtain ⟨tail, htail⟩ := ih 0 rv (by omega)
          refine ⟨Voxel.encodeRunLengthBody cell (cursor + 1) ++ tail, ?_⟩
          rw [Voxel.encodeRunLength, if_pos ⟨by omega, by omega⟩, htail]
          rfl
      · rw [if_neg he]
        obtain ⟨tail, htail⟩ := ih 1 cell (by omega)
        refine ⟨Voxel.encodeRunLengthBody rv cursor ++ tail, ?_⟩
        rw [Voxel.encodeRunLength, if_pos ⟨by omega, by omega⟩, htail]
        rfl

/-- C9.  `encode_run_length` rejects every count outside `[1, 256]`
(the `assert!`, modelled as `none`), and this branch is unreachable from
`Chunk::encode`: encoding any constructed chunk always succeeds. -/
theorem invalid_run_length_unreachable :
    (∀ (v : Voxel) (count : Nat), ¬ (1 ≤ count ∧ count ≤ 256) →
      Voxel.encodeRunLength v count = none) ∧
    (∀ c : Chunk, ∃ bs, c.encode = some bs) := by
  refine ⟨fun v count h => by rw [Voxel.encodeRunLength, if_neg h], fun c => ?_⟩
  exact encodeCells_isSome _ 0 _ (by omega)

/-- Witness for C9: count 257 is rejected. -/
theorem invalid_run_length_unreachable_witness :
    Voxel.encodeRunLength Voxel.defaultVoxel 257 = none :=
  invalid_run_length_unreachable.1 Voxel.defaultVoxel 257 (by decide)

lemma gridGet_insert_ne (g : Grid) (p q : VoxelCoordinates) (v : Voxel) (h : ¬ q = p) :
    Grid.get (Grid.insert g p v) q = Grid.get g q := by
  unfold Grid.get Grid.insert
  have hpq : ¬ p = q := fun e => h e.symm
  rw [List.find?_cons_of_neg _ (by simpa using hpq)]
  congr 1
  induction g with
  | nil => rfl
  | cons e t ih =>
    by_cases hep : e.1 = p
    · have heq : ¬ e.1 = q := by rw [hep]; exact hpq
      rw [List.filter_cons_of_neg (by simpa using hep),
        List.find?_cons_of_neg _ (by simpa using heq)]
      exact ih
    · rw [List.filter_cons_of_pos (by simpa using hep)]
      by_cases heq : e.1 = q
      · rw [List.find?_cons_of_pos _ (by simpa using heq),
          List.find?_cons_of_pos _ (by simpa using heq)]
      · rw [List.find?_cons_of_neg _ (by simpa using heq),
          List.find?_cons_of_neg _ (by simpa using heq)]
        exact ih

lemma mem_scanCoords_bounds {p : VoxelCoordinates} (h : p ∈ scanCoords) :
    0 ≤ p.x ∧ p.x ≤ 31 ∧ 0 ≤ p.y ∧ p.y ≤ 31 ∧ 0 ≤ p.z ∧ p.z ≤ 31 := by
  simp only [scanCoords, List.mem_flatMap, List.mem_map, List.mem_range] at h
  obtain ⟨y, hy, z, hz, x, hx, rfl⟩ := h
  refine ⟨?_, ?_, ?_, ?_, ?_, ?_⟩ <;> simp only [Int.ofNat_eq_coe] <;> omega

/-- C10.  `Chunk::encode` ignores grid entries whose coordinates lie
outside `[0, 31]` on some axis (such keys are constructible via
`from_vec3`, which does not clamp): writing any voxel at such a position
leaves the encoded bytes unchanged, because the ordered scan only looks
up coordinates inside `[0, 31]^3`. -/
theorem out_of_range_entries_ignored (c : Chunk) (p : VoxelCoordinates) (v : Voxel)
    (h : p.x < 0 ∨ 31 < p.x ∨ p.y < 0 ∨ 31 < p.y ∨ p.z < 0 ∨ 31 < p.z) :
    (c.writeVoxel p v).encode = c.encode := by
  unfold Chunk.encode
  have hbase : (c.writeVoxel p v).base_material = c.base_material := rfl
  rw [hbase]
  congr 1
  unfold scanList
  refine List.map_congr_left fun q hq => ?_
  have hb := mem_scanCoords_bounds hq
  have hne : ¬ q = p := by
    intro e
    subst e
    omega
  show (Grid.get (Grid.insert c.grid p v) q).getD _ = _
  rw [gridGet_insert_ne c.grid p q v hne]
  rfl

/-- Witness for C10: writing a voxel at the unclamped
`from_vec3(99, 0, 0)` position does not change the encoding of the empty
chunk. -/
theorem out_of_range_entries_ignored_witness :
    (Chunk.new.writeVoxel (VoxelCoordinates.fromVec3 99 0 0)
        ⟨1, 0, TerrainGridMaterial.Grass⟩).encode = Chunk.new.encode :=
  out_of_range_entries_ignored Chunk.new (VoxelCoordinates.fromVec3 99 0 0)
    ⟨1, 0, TerrainGridMaterial.Grass⟩ (by decide)

/-- The required byte-width of one axis delta: 1 if `|delta| < 256`,
2 if `|delta| < 65536`, else 3 (the spec's §4.5 classification;
`axisFiller = 4 - axisWidth`). -/
def axisWidth (a : Int) : Nat :=
  if a.natAbs < 256 then 1 else if a.natAbs < 65536 then 2 else 3

/-- The largest required byte-width across the three axes. -/
def maxWidth (dx dy dz : Int) : Nat :=
  max (axisWidth dx) (max (axisWidth dy) (axisWidth dz))

/-- The sign byte of one axis: `0xFF` for a negative delta, else `0x00`. -/
def signByte (a : Int) : Nat := if a < 0 then 0xFF else 0x00

/-- The magnitude byte-plane of significance `256 ^ i`: one base-256 digit
per axis, in x, y, z order. -/
def magPlaneAt (i : Nat) (dx dy dz : Int) : List Nat :=
  [dx.natAbs / 256 ^ i % 256, dy.natAbs / 256 ^ i % 256, dz.natAbs / 256 ^ i % 256]

lemma adjustAxis_eq (a : Nat) :
    adjustAxis a = (a / 65536 % 256, a / 256 % 256, a % 256) := by
  unfold adjustAxis
  dsimp only
  by_cases h1 : 65536 ≤ a
  · rw [if_pos h1]
    dsimp only
    rw [show a - a / 65536 * 65536 = a % 65536 from by omega]
    by_cases h2 : 256 ≤ a % 65536
    · rw [if_pos h2]
      dsimp only
      rw [show a % 65536 - a % 65536 / 256 * 256 = a % 256 from by omega]
      simp only [Prod.mk.injEq, true_and, and_true]
      omega
    · rw [if_neg h2]
      dsimp only
      simp only [Prod.mk.injEq, true_and, and_true]
      omega
  · rw [if_neg h1]
    dsimp only
    by_cases h2 : 256 ≤ a
    · rw [if_pos h2]
      dsimp only
      rw [show a - a / 256 * 256 = a % 256 from by omega]
      simp only [Prod.mk.injEq, true_and, and_true]
      omega
    · rw [if_neg h2]
      dsimp only
      simp only [Prod.mk.injEq, true_and, and_true]
      omega

lemma axisFiller_eq (a : Int) : axisFiller a.natAbs = 4 - axisWidth a := by
  unfold axisFiller axisWidth
  split_ifs <;> rfl

lemma negPadding_eq (dx dy dz : Int) :
    (([dx, dy, dz].map fun axis => axisFiller axis.natAbs).foldl min 3) =
      4 - maxWidth dx dy dz := by
  simp only [List.map_cons, List.map_nil, List.foldl_cons, List.foldl_nil,
    axisFiller_eq, maxWidth]
  unfold axisWidth
  split_ifs <;> rfl

lemma maxWidth_cases (dx dy dz : Int) :
    maxWidth dx dy dz = 1 ∨ maxWidth dx dy dz = 2 ∨ maxWidth dx dy dz = 3 := by
  unfold maxWidth axisWidth
  split_ifs <;> simp

/-- Structural form of the delta header: `4 - W` sign planes followed by
the `W` magnitude planes in increasing significance order, where `W` is
the largest per-axis byte-width. -/
lemma deltaHeader_structure (dx dy dz : Int) :
    deltaHeader dx dy dz =
      (List.replicate (4 - maxWidth dx dy dz) [signByte dx, signByte dy, signByte dz]).flatten
        ++ ((List.range (maxWidth dx dy dz)).map fun i => magPlaneAt i dx dy dz).flatten := by
  unfold deltaHeader
  dsimp only
  rw [negPadding_eq]
  have hsign : [dx, dy, dz].map (fun axis => if axis < 0 then 0xFF else 0x00) =
      [signByte dx, signByte dy, signByte dz] := rfl
  rw [hsign]
  congr 1
  rcases maxWidth_cases dx dy dz with h | h | h <;> rw [h] <;>
    simp [List.range_succ, adjustAxis_eq, magPlaneAt, pow_succ] <;>
    norm_num

/-- C1, counterexample.  The delta header emitted for a zero delta (for
example the very first chunk, which is its own cursor) is 12 bytes — four
3-byte planes — not the 9 bytes (three planes) the claim states. -/
theorem delta_header_not_nine_bytes :
    deltaHeader 0 0 0 = List.replicate 12 0 ∧ ¬ (deltaHeader 0 0 0).length = 9 := by
  exact ⟨by decide, by decide⟩

/-- C1, amended.  Every emitted position delta header consists of exactly
4 byte-planes (12 bytes): `4 - W` sign planes followed by `W` magnitude
planes, where `W` is the *maximum* over the three axes of that axis's
required byte-width (1 if `|delta| < 256`, 2 if `|delta| < 65536`,
else 3). -/
theorem delta_header_four_planes (dx dy dz : Int) :
    (deltaHeader dx dy dz).length = 12 ∧
    deltaHeader dx dy dz =
      (List.replicate (4 - maxWidth dx dy dz) [signByte dx, signByte dy, signByte dz]).flatten
        ++ ((List.range (maxWidth dx dy dz)).map fun i => magPlaneAt i dx dy dz).flatten ∧
    (((List.range (maxWidth dx dy dz)).map fun i => magPlaneAt i dx dy dz).flatten).length =
      3 * maxWidth dx dy dz := by
  have hs := deltaHeader_structure dx dy dz
  have hmag : (((List.range (maxWidth dx dy dz)).map fun i =>
      magPlaneAt i dx dy dz).flatten).length = 3 * maxWidth dx dy dz := by
    rcases maxWidth_cases dx dy dz with h | h | h <;> rw [h] <;>
      simp [List.range_succ, magPlaneAt]
  refine ⟨?_, hs, hmag⟩
  rw [hs]
  rcases maxWidth_cases dx dy dz with h | h | h <;> rw [List.length_append, hmag, h] <;>
    simp [List.length_flatten, List.map_replicate]

/-- C2, counterexample.  For the delta `(300, 0, 0)` the encoder writes
the units plane `[44, 0, 0]` *before* the base-256 plane `[1, 0, 0]` —
neither the claim's 3-plane most-significant-first layout
`[0,0,0, 1,0,0, 44,0,0]` nor a most-significant-first order within the
actual 4-plane header. -/
theorem delta_header_not_msb_first :
    deltaHeader 300 0 0 = [0, 0, 0, 0, 0, 0, 44, 0, 0, 1, 0, 0] ∧
    ¬ deltaHeader 300 0 0 = [0, 0, 0, 1, 0, 0, 44, 0, 0] ∧
    ¬ deltaHeader 300 0 0 = [0, 0, 0, 0, 0, 0, 1, 0, 0, 44, 0, 0] := by
  exact ⟨by decide, by decide, by decide⟩

/-- C2, amended.  In every emitted position delta header the magnitude
planes are written *least*-significant byte-plane first: plane `i`
(significance `256 ^ i`) holds the base-256 digits
`|delta| / 256 ^ i % 256` of the three axes (x, y, z), and the planes
appear for `i = 0, 1, ...` upward, so the units plane precedes the
base-256 plane, which precedes the base-256² plane; axes whose own
required width is at most a plane's index contribute `0x00` there. -/
theorem delta_header_lsb_plane_first (dx dy dz : Int) :
    deltaHeader dx dy dz =
      (List.replicate (4 - maxWidth dx dy dz) [signByte dx, signByte dy, signByte dz]).flatten
        ++ ((List.range (maxWidth dx dy dz)).map fun i =>
          [dx.natAbs / 256 ^ i % 256, dy.natAbs / 256 ^ i % 256,
            dz.natAbs / 256 ^ i % 256]).flatten :=
  deltaHeader_structure dx dy dz

lemma encodeCells_nil (cursor : Nat) (rv : Voxel) :
    encodeCells [] cursor rv =
      if cursor > 0 then Voxel.encodeRunLength rv cursor else some [] := rfl

lemma encodeCells_cons_zero (cell : Voxel) (rest : List Voxel) (rv : Voxel) :
    encodeCells (cell :: rest) 0 rv = encodeCells rest 1 cell := by
  simp [encodeCells]

lemma encodeCells_cons_eq (cell : Voxel) (rest : List Voxel) (cursor : Nat) (rv : Voxel)
    (h0 : ¬ cursor = 0) (he : cell = rv) (hlt : cursor < 0xFF) :
    encodeCells (cell :: rest) cursor rv = encodeCells rest (cursor + 1) rv := by
  simp only [encodeCells]
  rw [if_neg h0, if_pos he, if_pos hlt]

lemma encodeCells_cons_max (cell : Voxel) (rest : List Voxel) (rv : Voxel) (he : cell = rv) :
    encodeCells (cell :: rest) 0xFF rv =
      (Voxel.encodeRunLength cell 256).bind fun run =>
        (encodeCells rest 0 rv).map fun tail => run ++ tail := by
  simp only [encodeCells]
  rw [if_neg (by norm_num : ¬ (0xFF : Nat) = 0), if_pos he,
    if_neg (lt_irrefl 0xFF)]

lemma encodeCells_cons_ne (cell : Voxel) (rest : List Voxel) (cursor : Nat) (rv : Voxel)
    (h0 : ¬ cursor = 0) (he : ¬ cell = rv) :
    encodeCells (cell :: rest) cursor rv =
      (Voxel.encodeRunLength rv cursor).bind fun run =>
        (encodeCells rest 1 cell).map fun tail => run ++ tail := by
  simp only [encodeCells]
  rw [if_neg h0, if_neg he]

/-- With the run cursor at 0 the next cell overwrites `run_length_voxel`,
so the carried voxel is irrelevant. -/
lemma encodeCells_cursor0_indep (l : List Voxel) (a b : Voxel) :
    encodeCells l 0 a = encodeCells l 0 b := by
  cases l with
  | nil => rfl
  | cons cell rest => rw [encodeCells_cons_zero, encodeCells_cons_zero]

/-- Extending a run over `m` further copies of the same voxel just
advances the cursor, as long as it stays at or below 255. -/
lemma encodeCells_replicate_extend (v : Voxel) (m : Nat) :
    ∀ (cursor : Nat), 1 ≤ cursor → cursor + m ≤ 0xFF → ∀ rest : List Voxel,
      encodeCells (List.replicate m v ++ rest) cursor v =
        encodeCells rest (cursor + m) v := by
  induction m with
  | zero => intro cursor h1 h2 rest; simp
  | succ m ih =>
    intro cursor h1 h2 rest
    rw [List.replicate_succ, List.cons_append,
      encodeCells_cons_eq v _ cursor v (by omega) rfl (by omega), ih (cursor + 1) (by omega)
        (by omega)]
    congr 1
    omega

/-- A full block of 256 equal cells flushes exactly one run of length 256
and resets the cursor to 0. -/
lemma encodeCells_run256 (v : Voxel) (rest : List Voxel) (rv : Voxel) :
    encodeCells (List.replicate 256 v ++ rest) 0 rv =
      (Voxel.encodeRunLength v 256).bind fun run =>
        (encodeCells rest 0 v).map fun tail => run ++ tail := by
  rw [show (256 : Nat) = 1 + 255 from by norm_num, List.replicate_add,
    List.append_assoc, List.replicate_one, List.singleton_append,
    encodeCells_cons_zero]
  rw [show (255 : Nat) = 254 + 1 from by norm_num, List.replicate_add,
    List.append_assoc, List.replicate_one, List.singleton_append,
    encodeCells_replicate_extend v 254 1 (by omega) (by omega),
    encodeCells_cons_max v rest v rfl]

/-- `k` full blocks of 256 equal cells flush exactly `k` runs. -/
lemma encodeCells_replicate_mul (v : Voxel) (run : List Nat)
    (hrun : Voxel.encodeRunLength v 256 = some run) (k : Nat) :
    ∀ rv : Voxel, encodeCells (List.replicate (256 * k) v) 0 rv =
      some ((List.replicate k run).flatten) := by
  induction k with
  | zero => intro rv; simp [encodeCells]
  | succ k ih =>
    intro rv
    rw [show 256 * (k + 1) = 256 + 256 * k from by ring, List.replicate_add,
      encodeCells_run256, hrun, ih v]
    simp [List.replicate_succ]

lemma gridGet_nil (p : VoxelCoordinates) : Grid.get [] p = none := rfl

lemma scanList_empty_grid (c : Chunk) (h : c.grid = []) :
    scanList c = List.replicate 32768 (baseVoxel c.base_material) := by
  unfold scanList
  rw [h]
  have hc : List.map (fun p => (Grid.get [] p).getD (baseVoxel c.base_material)) scanCoords =
      List.map (fun _ => baseVoxel c.base_material) scanCoords :=
    List.map_congr_left fun p _ => rfl
  rw [hc, List.map_const', scanCoords_length]

lemma baseVoxel_encodeData (m : TerrainGridMaterial) :
    (baseVoxel m).getEncodeData = (255, 0) := by
  norm_num [baseVoxel, Voxel.getEncodeData]
  rfl

/-- The run bytes of 256 consecutive base voxels: flag `0x80 ||| code`,
count byte `0xFF`, nothing else (full solid, no water). -/
lemma encodeRunLength_baseVoxel_256 (m : TerrainGridMaterial) :
    Voxel.encodeRunLength (baseVoxel m) 256 = some [m.code + 0x80, 0xFF] := by
  rw [Voxel.encodeRunLength, if_pos (by norm_num)]
  simp only [Voxel.encodeRunLengthBody, baseVoxel_encodeData,
    show (baseVoxel m).material = m from rfl]
  norm_num [code_lor128]

/-- A chunk with an empty grid encodes as exactly 128 runs of 256 base
voxels each. -/
lemma chunkEncode_empty_grid (c : Chunk) (h : c.grid = []) :
    c.encode = some ((List.replicate 128 [c.base_material.code + 0x80, 0xFF]).flatten) := by
  unfold Chunk.encode
  rw [scanList_empty_grid c h, show (32768 : Nat) = 256 * 128 from by norm_num,
    encodeCells_replicate_mul (baseVoxel c.base_material) _
      (encodeRunLength_baseVoxel_256 c.base_material) 128]

/-- C5.  `Chunk::encode` caps runs at 256 cells:
(1) a scan beginning with 256 identical cells flushes them as a single
`encode_run_length` call with count 256 and restarts cleanly on the rest;
(2) for a dry voxel that run's bytes end in the count byte `0xFF`;
(3) 257 identical cells followed by a different cell split into one
256-run followed by one 1-run;
(4) a chunk whose grid is empty (all 32768 cells equal to the implicit
base voxel, which needs no solid or water byte) encodes as exactly 128
runs. -/
theorem chunk_encode_run_cap :
    (∀ (c : Chunk) (v : Voxel) (rest : List Voxel),
      scanList c = List.replicate 256 v ++ rest →
      c.encode = (Voxel.encodeRunLength v 256).bind fun run =>
        (encodeCells rest 0 v).map fun tail => run ++ tail) ∧
    (∀ v : Voxel, v.getEncodeData.2 = 0 →
      Voxel.encodeRunLength v 256 =
        some ([v.material.code
            + (if v.getEncodeData.1 ≠ 0xFF ∧ v.getEncodeData.1 ≠ 0x00 then 0x40 else 0)
            + 0x80] ++
          (if v.getEncodeData.1 ≠ 0xFF ∧ v.getEncodeData.1 ≠ 0x00 then [v.getEncodeData.1]
           else []) ++ [0xFF])) ∧
    (∀ (v w : Voxel) (rest : List Voxel) (rv : Voxel), ¬ v = w →
      encodeCells (List.replicate 257 v ++ w :: rest) 0 rv =
        (Voxel.encodeRunLength v 256).bind fun run1 =>
          (Voxel.encodeRunLength v 1).bind fun run2 =>
            (encodeCells rest 1 w).map fun tail => run1 ++ (run2 ++ tail)) ∧
    (∀ c : Chunk, c.grid = [] →
      c.encode = some ((List.replicate 128 [c.base_material.code + 0x80, 0xFF]).flatten)) := by
  refine ⟨?_, ?_, ?_, chunkEncode_empty_grid⟩
  · intro c v rest h
    unfold Chunk.encode
    rw [h, encodeCells_run256]
  · intro v hw
    rw [Voxel.encodeRunLength, if_pos (by norm_num)]
    simp only [Voxel.encodeRunLengthBody]
    by_cases c6 : v.getEncodeData.1 ≠ 0xFF ∧ v.getEncodeData.1 ≠ 0x00 <;>
      simp [c6, hw, code_lor128, code_add64_lor128, code_lor64]
  · intro v w rest rv hne
    rw [show (257 : Nat) = 256 + 1 from by norm_num, List.replicate_add,
      List.append_assoc, List.replicate_one, List.singleton_append,
      encodeCells_run256, encodeCells_cons_zero,
      encodeCells_cons_ne w rest 1 v (by norm_num) (fun e => hne e.symm)]
    obtain ⟨r1, hr1⟩ : ∃ r1, Voxel.encodeRunLength v 256 = some r1 :=
      ⟨_, by rw [Voxel.encodeRunLength, if_pos (by norm_num)]⟩
    obtain ⟨r2, hr2⟩ : ∃ r2, Voxel.encodeRunLength v 1 = some r2 :=
      ⟨_, by rw [Voxel.encodeRunLength, if_pos (by norm_num)]⟩
    obtain ⟨t, ht⟩ := encodeCells_isSome rest 1 w (by norm_num)
    rw [hr1, hr2, ht]
    simp [List.append_assoc]

/-- Witness for C5 at concrete inputs: the empty (all-Air) chunk for the
256-cap and 128-run parts, and Air/Grass base voxels for the dry run
bytes and the 257-split. -/
theorem chunk_encode_run_cap_witness :
    (Chunk.new.encode = (Voxel.encodeRunLength (baseVoxel TerrainGridMaterial.Air) 256).bind
      fun run => (encodeCells (List.replicate 32512 (baseVoxel TerrainGridMaterial.Air)) 0
        (baseVoxel TerrainGridMaterial.Air)).map fun tail => run ++ tail) ∧
    Voxel.encodeRunLength (baseVoxel TerrainGridMaterial.Air) 256 = some [0x80, 0xFF] ∧
    (encodeCells (List.replicate 257 (baseVoxel TerrainGridMaterial.Air) ++
        [baseVoxel TerrainGridMaterial.Grass]) 0 (baseVoxel TerrainGridMaterial.Air) =
      (Voxel.encodeRunLength (baseVoxel TerrainGridMaterial.Air) 256).bind fun run1 =>
        (Voxel.encodeRunLength (baseVoxel TerrainGridMaterial.Air) 1).bind fun run2 =>
          (encodeCells [] 1 (baseVoxel TerrainGridMaterial.Grass)).map fun tail =>
            run1 ++ (run2 ++ tail)) ∧
    Chunk.new.encode =
      some ((List.replicate 128 [TerrainGridMaterial.Air.code + 0x80, 0xFF]).flatten) := by
  have h := chunk_encode_run_cap
  refine ⟨h.1 Chunk.new (baseVoxel TerrainGridMaterial.Air)
      (List.replicate 32512 (baseVoxel TerrainGridMaterial.Air)) ?_, ?_,
    h.2.2.1 (baseVoxel TerrainGridMaterial.Air) (baseVoxel TerrainGridMaterial.Grass) []
      (baseVoxel TerrainGridMaterial.Air) ?_, ?_⟩
  · rw [scanList_empty_grid Chunk.new rfl, ← List.replicate_add]
    norm_num [Chunk.new]
  · have h2 := h.2.1 (baseVoxel TerrainGridMaterial.Air) (by rw [baseVoxel_encodeData])
    simpa [baseVoxel_encodeData] using h2
  · exact fun he => absurd (congrArg Voxel.material he) (by decide)
  · exact h.2.2.2 Chunk.new rfl

lemma lexLt_trichotomy (a b : TerrainVec) :
    TerrainVec.lexLt a b ∨ a = b ∨ TerrainVec.lexLt b a := by
  obtain ⟨ax, ay, az⟩ := a
  obtain ⟨bx, by', bz⟩ := b
  simp only [TerrainVec.lexLt, TerrainVec.mk.injEq]
  omega

lemma lexLt_asymm (a b : TerrainVec) (h : TerrainVec.lexLt a b) :
    ¬ TerrainVec.lexLt b a := by
  obtain ⟨ax, ay, az⟩ := a
  obtain ⟨bx, by', bz⟩ := b
  simp only [TerrainVec.lexLt] at h ⊢
  omega

lemma lexLt_irrefl (a : TerrainVec) : ¬ TerrainVec.lexLt a a := by
  obtain ⟨ax, ay, az⟩ := a
  simp only [TerrainVec.lexLt]
  omega

lemma lexLt_ne (a b : TerrainVec) (h : TerrainVec.lexLt a b) : ¬ a = b := by
  intro e
  exact lexLt_irrefl a (e ▸ h)

lemma lexLt_trans (a b c : TerrainVec) (h1 : TerrainVec.lexLt a b)
    (h2 : TerrainVec.lexLt b c) : TerrainVec.lexLt a c := by
  obtain ⟨ax, ay, az⟩ := a
  obtain ⟨bx, by', bz⟩ := b
  obtain ⟨cx, cy, cz⟩ := c
  simp only [TerrainVec.lexLt] at h1 h2 ⊢
  omega

lemma mem_insertWorld (p : ChunkCoordinates) (c : Chunk)
    (e : ChunkCoordinates × Chunk) :
    ∀ l, e ∈ insertWorld p c l → e = (p, c) ∨ e ∈ l := by
  intro l
  induction l with
  | nil => intro h; simpa [insertWorld] using h
  | cons head tail ih =>
    obtain ⟨r, d⟩ := head
    intro h
    simp only [insertWorld] at h
    split_ifs at h with h1 h2
    · simp only [List.mem_cons] at h
      rcases h with h | h | h
      · exact Or.inl h
      · exact Or.inr (by simp [h])
      · exact Or.inr (by simp [h])
    · simp only [List.mem_cons] at h
      rcases h with h | h
      · exact Or.inl h
      · exact Or.inr (by simp [h])
    · simp only [List.mem_cons] at h
      rcases h with h | h
      · exact Or.inr (by simp [h])
      · rcases ih h with h' | h'
        · exact Or.inl h'
        · exact Or.inr (by simp [h'])

/-- The key order used for the world map: ascending `lexLt` on the keys,
pairwise (equivalently: strictly sorted). -/
def worldSorted (l : List (ChunkCoordinates × Chunk)) : Prop :=
  l.Pairwise fun a b => TerrainVec.lexLt a.1 b.1

lemma insertWorld_pairwise (p : ChunkCoordinates) (c : Chunk) :
    ∀ l, worldSorted l → worldSorted (insertWorld p c l) := by
  intro l
  induction l with
  | nil => intro _; simp [insertWorld, worldSorted]
  | cons head tail ih =>
    obtain ⟨r, d⟩ := head
    intro h
    rw [worldSorted, List.pairwise_cons] at h
    obtain ⟨hr, ht⟩ := h
    simp only [insertWorld]
    split_ifs with h1 h2
    · rw [worldSorted, List.pairwise_cons]
      refine ⟨fun e he => ?_, List.pairwise_cons.mpr ⟨hr, ht⟩⟩
      rcases List.mem_cons.mp he with he' | he'
      · rw [he']; exact h1
      · exact lexLt_trans _ _ _ h1 (hr e he')
    · rw [worldSorted, List.pairwise_cons]
      exact ⟨fun e he => h2 ▸ hr e he, ht⟩
    · rw [worldSorted, List.pairwise_cons]
      refine ⟨fun e he => ?_, ih ht⟩
      rcases mem_insertWorld p c e tail he with he' | he'
      · rw [he']
        rcases lexLt_trichotomy p r with hpr | hpr | hpr
        · exact absurd hpr h1
        · exact absurd hpr h2
        · exact hpr
      · exact hr e he'

lemma insertWorld_comm (p q : ChunkCoordinates) (cp cq : Chunk) (hne : ¬ p = q) :
    ∀ l, insertWorld p cp (insertWorld q cq l) = insertWorld q cq (insertWorld p cp l) := by
  have hne' : ¬ q = p := fun e => hne e.symm
  intro l
  induction l with
  | nil =>
    rcases lexLt_trichotomy p q with hpq | hpq | hpq
    · simp [insertWorld, hpq, lexLt_asymm _ _ hpq, hne, hne']
    · exact absurd hpq hne
    · simp [insertWorld, hpq, lexLt_asymm _ _ hpq, hne, hne']
  | cons head tail ih =>
    obtain ⟨r, d⟩ := head
    rcases lexLt_trichotomy q r with hqr | hqr | hqr
    · rcases lexLt_trichotomy p q with hpq | hpq | hpq
      · have hpr := lexLt_trans _ _ _ hpq hqr
        simp [insertWorld, hqr, hpq, hpr, lexLt_asymm _ _ hpq, hne, hne']
      · exact absurd hpq hne
      · rcases lexLt_trichotomy p r with hpr | hpr | hpr
        · simp [insertWorld, hqr, hpr, hpq, lexLt_asymm _ _ hpq, hne, hne']
        · subst hpr
          simp [insertWorld, hqr, hpq, lexLt_asymm _ _ hpq, lexLt_asymm _ _ hqr,
            lexLt_irrefl, hne, hne', show ¬ p = q from hne,
            show ¬ q = p from hne']
        · simp [insertWorld, hqr, hpq, lexLt_asymm _ _ hpq, lexLt_asymm _ _ hpr,
            show ¬ TerrainVec.lexLt p r from lexLt_asymm _ _ hpr,
            show ¬ p = r from fun e => lexLt_ne _ _ hpr e.symm, hne, hne']
    · subst hqr
      rcases lexLt_trichotomy p q with hpq | hpq | hpq
      · simp [insertWorld, hpq, lexLt_asymm _ _ hpq, lexLt_irrefl, hne, hne']
      · exact absurd hpq hne
      · simp [insertWorld, hpq, lexLt_asymm _ _ hpq, lexLt_irrefl, hne, hne']
    · rcases lexLt_trichotomy p r with hpr | hpr | hpr
      · have hpq := lexLt_trans _ _ _ hpr hqr
        simp [insertWorld, hpr, hpq, lexLt_asymm _ _ hqr, lexLt_asymm _ _ hpq,
          show ¬ q = r from fun e => lexLt_ne _ _ hqr e.symm, hne, hne']
      · subst hpr
        simp [insertWorld, lexLt_asymm _ _ hqr, lexLt_irrefl,
          show ¬ q = p from fun e => lexLt_ne _ _ hqr e.symm, hne, hne']
      · simp [insertWorld, lexLt_asymm _ _ hqr, lexLt_asymm _ _ hpr,
          show ¬ q = r from fun e => lexLt_ne _ _ hqr e.symm,
          show ¬ p = r from fun e => lexLt_ne _ _ hpr e.symm, hne, hne', ih]

lemma deltaHeader_zero : deltaHeader 0 0 0 = List.replicate 12 0 := by decide

lemma encodeWorldLoop_isSome (l : List (ChunkCoordinates × Chunk)) :
    ∀ cur : Option ChunkCoordinates, ∃ out, encodeWorldLoop l cur = some out := by
  induction l with
  | nil => intro cur; exact ⟨[], rfl⟩
  | cons head tail ih =>
    intro cur
    obtain ⟨pos, ch⟩ := head
    obtain ⟨body, hbody⟩ :=
      encodeCells_isSome (scanList ch) 0 (baseVoxel ch.base_material) (by omega)
    obtain ⟨tl, htl⟩ := ih (some pos)
    simp only [encodeWorldLoop]
    rw [show ch.encode = some body from hbody, htl]
    exact ⟨_, rfl⟩

/-- C6.  `SmoothGrid::encode` emits the fixed header `[0x01, 0x05]`
followed by one entry per stored chunk, iterating the world in its
key-sorted order: `write_chunk` calls commute (so the stored map, and
hence the output, is independent of write order), writes keep the world
sorted in ascending lexicographic (x, then y, then z) order, every entry
is a position delta header against the previous chunk followed by the
chunk's bytes, and the very first entry's delta header is entirely
`0x00`. -/
theorem smoothgrid_encode_ordered :
    (∀ g : SmoothGrid, ∃ rest, g.encode = some (0x01 :: 0x05 :: rest)) ∧
    (∀ (g : SmoothGrid) (p q : ChunkCoordinates) (cp cq : Chunk), ¬ p = q →
      (g.writeChunk p cp).writeChunk q cq = (g.writeChunk q cq).writeChunk p cp) ∧
    (worldSorted SmoothGrid.new.world ∧
      ∀ (g : SmoothGrid) (p : ChunkCoordinates) (c : Chunk),
        worldSorted g.world → worldSorted ((g.writeChunk p c).world)) ∧
    (∀ (p : ChunkCoordinates) (c : Chunk) (rest : List (ChunkCoordinates × Chunk))
        (cur : ChunkCoordinates) (body tail : List Nat),
      c.encode = some body → encodeWorldLoop rest (some p) = some tail →
      encodeWorldLoop ((p, c) :: rest) (some cur) =
        some (deltaHeader (p.x - cur.x) (p.y - cur.y) (p.z - cur.z) ++ body ++ tail)) ∧
    (∀ (p : ChunkCoordinates) (c : Chunk) (rest : List (ChunkCoordinates × Chunk))
        (body tail : List Nat),
      c.encode = some body → encodeWorldLoop rest (some p) = some tail →
      encodeWorldLoop ((p, c) :: rest) none =
        some (List.replicate 12 0 ++ body ++ tail)) := by
  refine ⟨?_, ?_, ⟨List.Pairwise.nil, ?_⟩, ?_, ?_⟩
  · intro g
    obtain ⟨out, hout⟩ := encodeWorldLoop_isSome g.world none
    refine ⟨out, ?_⟩
    rw [SmoothGrid.encode, hout]
    simp [log2_32]
  · intro g p q cp cq hne
    exact congrArg SmoothGrid.mk (insertWorld_comm p q cp cq hne g.world).symm
  · exact fun g p c h => insertWorld_pairwise p c g.world h
  · intro p c rest cur body tail hbody htail
    simp only [encodeWorldLoop]
    rw [hbody, htail]
    rfl
  · intro p c rest body tail hbody htail
    simp only [encodeWorldLoop]
    rw [hbody, htail]
    simp [sub_self, deltaHeader_zero]

/-- Witness for C6: the spec's chunks at `(1,0,0)` and `(0,0,0)` commute
under `write_chunk`, a single write is sorted, and the first (and only)
entry of a one-chunk world carries the all-zero 12-byte delta header. -/
theorem smoothgrid_encode_ordered_witness :
    ((SmoothGrid.new.writeChunk (ChunkCoordinates.new 1 0 0) Chunk.new).writeChunk
        (ChunkCoordinates.new 0 0 0) Chunk.new =
      (SmoothGrid.new.writeChunk (ChunkCoordinates.new 0 0 0) Chunk.new).writeChunk
        (ChunkCoordinates.new 1 0 0) Chunk.new) ∧
    worldSorted ((SmoothGrid.new.writeChunk (ChunkCoordinates.new 0 0 1) Chunk.new).world) ∧
    encodeWorldLoop [(ChunkCoordinates.new 0 0 0, Chunk.new)] none =
      some (List.replicate 12 0 ++
        (List.replicate 128 [TerrainGridMaterial.Air.code + 0x80, 0xFF]).flatten ++ []) := by
  have h := smoothgrid_encode_ordered
  exact ⟨h.2.1 SmoothGrid.new (ChunkCoordinates.new 1 0 0) (ChunkCoordinates.new 0 0 0)
      Chunk.new Chunk.new (by decide),
    h.2.2.1.2 SmoothGrid.new (ChunkCoordinates.new 0 0 1) Chunk.new h.2.2.1.1,
    h.2.2.2.2 (ChunkCoordinates.new 0 0 0) Chunk.new [] _ []
      (chunkEncode_empty_grid Chunk.new rfl) rfl⟩
